import Mathlib

/-!
Verification of the ShopLite storefront core (src/main.py) against its
specification.  The business-logic layer is embedded shallowly:

* Python floats carrying money are modelled as rationals.  The builtin
  round(x, 2) is modelled as half-up rounding to two decimals (round2);
  Python rounds ties to even, but no value reached by the claims or by
  their counterexamples sits on a tie, so the two agree on everything
  stated here.
* The session cart is a Python dict from product id to a record with
  title, price and qty.  Dicts preserve insertion order, updating an
  existing key keeps its position, and a fresh key is appended, so the
  cart is an association list with unique keys.
* Code that raises (KeyError in update_qty, conversion errors in
  import_cart) is modelled with Except.
-/

namespace ShopLite

/-- Half-up rounding to two decimal places, modelling round(x, 2). -/
def round2 (q : ℚ) : ℚ := (round (100 * q) : ℚ) / 100

/-- One cart line: the dict value stored under a product id, as built by
add_to_cart and import_cart in src/main.py. -/
structure CartItem where
  title : String
  price : ℚ
  qty : ℤ
deriving Repr, DecidableEq

/-- The session cart: a Python dict from product id to line, modelled as
an insertion-ordered association list with unique keys. -/
abbrev Cart := List (ℤ × CartItem)

/-- Dict lookup: cart[pid] when present (keys are unique, so the first
match is the match). -/
def Cart.lookup : Cart → ℤ → Option CartItem
  | [], _ => none
  | p :: t, k => if p.1 = k then some p.2 else Cart.lookup t k

/-- The keys of the cart are pairwise distinct (a dict property). -/
def Cart.keysNodup (cart : Cart) : Prop := (cart.map Prod.fst).Nodup

instance (cart : Cart) : Decidable cart.keysNodup := by
  unfold Cart.keysNodup; infer_instance

/-- Every line of a dict assignment cart[pid] = item: overwrites in place
when pid is present (keeping its position), else appends. -/
def Cart.dictInsert (cart : Cart) (pid : ℤ) (item : CartItem) : Cart :=
  if (cart.lookup pid).isSome then
    cart.map (fun p => if p.1 = pid then (p.1, item) else p)
  else
    cart ++ [(pid, item)]

/-- A catalog row as far as add_to_cart reads it: id, title, price. -/
structure Product where
  id : ℤ
  title : String
  price : ℚ
deriving Repr, DecidableEq

/-- add_to_cart(row, qty) from src/main.py lines 135-142. -/
def add_to_cart (cart : Cart) (row : Product) (qty : ℤ) : Cart :=
  if qty ≤ 0 then cart
  else if (cart.lookup row.id).isSome then
    cart.map (fun p => if p.1 = row.id then (p.1, { p.2 with qty := p.2.qty + qty }) else p)
  else
    cart ++ [(row.id, { title := row.title, price := row.price, qty := qty })]

/-- remove_from_cart(pid) from src/main.py lines 145-146: dict.pop with a
default, so absent ids are ignored. -/
def remove_from_cart (cart : Cart) (pid : ℤ) : Cart :=
  cart.filter (fun p => p.1 != pid)

/-- update_qty(pid, qty) from src/main.py lines 149-153.  The qty > 0
branch executes cart[pid]["qty"] = int(qty), which raises KeyError when
pid is absent; that exception is the .error case. -/
def update_qty (cart : Cart) (pid : ℤ) (qty : ℤ) : Except String Cart :=
  if qty ≤ 0 then .ok (remove_from_cart cart pid)
  else if (cart.lookup pid).isSome then
    .ok (cart.map (fun p => if p.1 = pid then (p.1, { p.2 with qty := qty }) else p))
  else
    .error "KeyError"

/-- The totals dict returned by cart_totals. -/
structure Totals where
  n_items : ℤ
  subtotal : ℚ
  shipping : ℚ
  tax : ℚ
  grand : ℚ
deriving Repr, DecidableEq

/-- The running float total accumulated by the loop in cart_totals:
the unrounded sum of price times qty over the lines. -/
def rawTotal (cart : Cart) : ℚ := (cart.map (fun p => p.2.price * (p.2.qty : ℚ))).sum

/-- The running item count accumulated by the loop in cart_totals. -/
def itemCount (cart : Cart) : ℤ := (cart.map (fun p => p.2.qty)).sum

/-- cart_totals from src/main.py lines 156-172. -/
def cart_totals (cart : Cart) : Totals :=
  let total := rawTotal cart
  let shipping : ℚ := if 50 ≤ total then 0 else if 0 < total then 4.99 else 0
  let tax := round2 (total * 0.2)
  let grand := round2 (total + shipping + tax)
  { n_items := itemCount cart
    subtotal := round2 total
    shipping := shipping
    tax := tax
    grand := grand }

/-! ### JSON values and Python conversions

The function import_cart runs json.load, then reads each entry with entry.get and
the builtins int, str, float.  JVal models a loaded JSON value; pyInt,
pyFloat and pyStr model the builtins on such values (returning none
where the builtin raises TypeError or ValueError).  String-to-number
coercion is modelled for plain decimal literals, which is all that JSON
round-trips or the claims exercise. -/

inductive JVal where
  | null
  | jbool (b : Bool)
  | jnum (q : ℚ)
  | jstr (s : String)
  | jarr (xs : List JVal)
  | jobj (fields : List (String × JVal))

/-- Truncation toward zero, the behaviour of int() on a float. -/
def pyTrunc (q : ℚ) : ℤ := if q < 0 then -⌊-q⌋ else ⌊q⌋

/-- A plain decimal literal such as 12, -3.50; none when the string does
not parse (Python float/int raise ValueError). -/
def parseUnsignedDecimal (s : String) : Option ℚ :=
  match s.split (fun c => c == '.') with
  | [a] => (a.toNat?).map (fun n => (n : ℚ))
  | [a, b] =>
    match a.toNat?, b.toNat? with
    | some n, some f => some ((n : ℚ) + (f : ℚ) / (10 : ℚ) ^ b.length)
    | _, _ => none
  | _ => none

def parseDecimal (s : String) : Option ℚ :=
  if s.startsWith "-" then (parseUnsignedDecimal (s.drop 1)).map Neg.neg
  else parseUnsignedDecimal s

/-- int(v) on a loaded JSON value. -/
def pyInt : JVal → Option ℤ
  | .jnum q => some (pyTrunc q)
  | .jstr s => s.toInt?
  | .jbool b => some (if b then 1 else 0)
  | _ => none

/-- float(v) on a loaded JSON value. -/
def pyFloat : JVal → Option ℚ
  | .jnum q => some q
  | .jstr s => parseDecimal s
  | .jbool b => some (if b then 1 else 0)
  | _ => none

/-- str(v) on a loaded JSON value: total, never raises.  str(None) is
the string None.  The display form of numbers and containers is never
inspected by any claim, so a schematic form is used for them. -/
def pyStr : JVal → String
  | .jstr s => s
  | .null => "None"
  | .jbool b => if b then "True" else "False"
  | .jnum q => toString q
  | .jarr _ => "pylist"
  | .jobj _ => "pydict"

/-- entry.get(k): the value under key k, or None when absent. -/
def objGet (fields : List (String × JVal)) (k : String) : JVal :=
  match fields.find? (fun p => p.1 == k) with
  | some p => p.2
  | none => .null

/-- entry.get(k, d): the value under key k, or the default d. -/
def objGetD (fields : List (String × JVal)) (k : String) (d : JVal) : JVal :=
  match fields.find? (fun p => p.1 == k) with
  | some p => p.2
  | none => d

/-- The exceptions import_cart can catch: the explicit ValueError for a
non-list payload (FormatError in the spec taxonomy), and the
TypeError/ValueError/AttributeError raised while reading an entry
(ValidationError in the spec taxonomy). -/
inductive ImportError where
  | formatError
  | validationError
deriving Repr, DecidableEq

/-- The body of the import loop for one entry, src/main.py lines
207-210: pid = int(entry.get("id")); title = str(entry.get("title"));
price = float(entry.get("price")); qty = int(entry.get("qty", 1)).
A non-dict entry makes entry.get itself raise AttributeError. -/
def parseEntry : JVal → Except ImportError (ℤ × CartItem)
  | .jobj fields =>
    match pyInt (objGet fields "id") with
    | none => .error .validationError
    | some pid =>
      match pyFloat (objGet fields "price") with
      | none => .error .validationError
      | some price =>
        match pyInt (objGetD fields "qty" (.jnum 1)) with
        | none => .error .validationError
        | some qty => .ok (pid, { title := pyStr (objGet fields "title"), price := price, qty := qty })
  | _ => .error .validationError

/-- The import loop, src/main.py lines 206-212: builds new_cart entry by
entry, assigning new_cart[pid] only when qty > 0; the first exception
aborts the whole import. -/
def importLines (acc : Cart) : List JVal → Except ImportError Cart
  | [] => .ok acc
  | e :: es =>
    match parseEntry e with
    | .error err => .error err
    | .ok (pid, item) =>
      importLines (if 0 < item.qty then acc.dictInsert pid item else acc) es

/-- import_cart from src/main.py lines 200-217: on success the parsed
lines replace the whole cart and the stored error is cleared; on any
exception the cart is untouched and the error is recorded for display.
The result pairs the cart after the call with the recorded error. -/
def import_cart (cart : Cart) (data : JVal) : Cart × Option ImportError :=
  match data with
  | .jarr entries =>
    match importLines [] entries with
    | .ok newCart => (newCart, none)
    | .error err => (cart, some err)
  | _ => (cart, some .formatError)

/-- One row of the export DataFrame, src/main.py lines 180-187. -/
def exportLine (p : ℤ × CartItem) : JVal :=
  .jobj [("id", .jnum (p.1 : ℚ)), ("title", .jstr p.2.title), ("price", .jnum p.2.price),
         ("qty", .jnum (p.2.qty : ℚ)), ("subtotal", .jnum (round2 (p.2.price * (p.2.qty : ℚ))))]

/-- The JSON value written by export_cart("json"): records orient, one
object per cart line.  export_cart returns None on an empty cart
(src/main.py lines 175-178); file I/O and the returned path are not
modelled, only the serialized content. -/
def export_cart (cart : Cart) : Option JVal :=
  if cart.isEmpty then none else some (.jarr (cart.map exportLine))

/-- The payload export_cart writes for a non-empty cart. -/
def exportJson (cart : Cart) : JVal := .jarr (cart.map exportLine)

/-! ### Checkout -/

/-- A wall-clock instant; checkout receives the current UTC time as a
parameter since the embedding has no clock. -/
structure Timestamp where
  year : ℕ
  month : ℕ
  day : ℕ
  hour : ℕ
  minute : ℕ
  second : ℕ
deriving Repr, DecidableEq

def pad2 (n : ℕ) : String := if n < 10 then "0" ++ toString n else toString n

def pad4 (n : ℕ) : String :=
  if n < 10 then "000" ++ toString n
  else if n < 100 then "00" ++ toString n
  else if n < 1000 then "0" ++ toString n
  else toString n

/-- strftime with the format %Y%m%d-%H%M%S. -/
def formatTs (t : Timestamp) : String :=
  pad4 t.year ++ pad2 t.month ++ pad2 t.day ++ "-" ++ pad2 t.hour ++ pad2 t.minute ++ pad2 t.second

structure Customer where
  name : String
  email : String
  address : String
deriving Repr, DecidableEq

/-- The receipt dict built in sidebar_cart, src/main.py lines 296-306. -/
structure Order where
  ts : Timestamp
  name : String
  email : String
  address : String
  items : Cart
  totals : Totals
  order_id : String
deriving Repr, DecidableEq

/-- The session state touched by checkout. -/
structure AppState where
  cart : Cart
  orders : List Order
deriving Repr, DecidableEq

/-- can_pay from src/main.py line 294: Python truthiness of the cart and
of the three text fields, and the checkbox. -/
def can_pay (s : AppState) (c : Customer) (agree : Bool) : Bool :=
  !s.cart.isEmpty && !(c.name == "") && !(c.email == "") && !(c.address == "") && agree

/-- The checkout click handler, src/main.py lines 295-308: when can_pay
holds, build the receipt (order id ORD- plus the formatted UTC time,
snapshot of the cart lines and of cart_totals), append it to the orders
list, then empty the cart.  The button is disabled otherwise, so the
state is unchanged. -/
def checkout (s : AppState) (c : Customer) (agree : Bool) (now : Timestamp) : AppState :=
  if can_pay s c agree then
    { cart := []
      orders := s.orders ++ [{ ts := now, name := c.name, email := c.email, address := c.address,
                               items := s.cart, totals := cart_totals s.cart,
                               order_id := "ORD-" ++ formatTs now }] }
  else s

/-! ### Pagination -/

/-- The pagination block of catalog_view, src/main.py lines 354-364:
pages = max(1, ceil(total / per_page)); the page widget clamps the
requested page into [1, pages]; the result is the slice
[(page-1)*per_page, page*per_page) of the filtered list. -/
def paginate {α : Type} (products : List α) (perPage : ℕ) (pageReq : ℤ) : List α :=
  let total := products.length
  let pages : ℕ := max 1 ((total + perPage - 1) / perPage)
  let page : ℤ := max 1 (min pageReq (pages : ℤ))
  (products.drop ((page - 1).toNat * perPage)).take perPage

/-- A cart reachable through import whose raw total 49.999 rounds up to a
subtotal of exactly 50.00 yet is charged shipping. -/
def cexCartA : Cart := [(1, { title := "A", price := 49999/1000, qty := 1 })]

/-- A cart reachable through import with a negative price: nonempty, with
a nonzero subtotal below 50, yet charged no shipping. -/
def cexCartB : Cart := [(1, { title := "B", price := -5, qty := 1 })]

/-- The parsed line of the last entry of the list carrying the given id
with a positive quantity: the line that survives the last-assignment-wins
behaviour of the import loop for that id. -/
def lastEntryFor : List JVal → ℤ → Option CartItem
  | [], _ => none
  | e :: rest, pid =>
    match lastEntryFor rest pid with
    | some it => some it
    | none =>
      match parseEntry e with
      | .ok (p, item) => if p = pid ∧ 0 < item.qty then some item else none
      | .error _ => none

/-- The cart states reachable from the empty session cart through the
cart operations of src/main.py. -/
inductive Reach : Cart → Prop where
  | empty : Reach []
  | add (c : Cart) (row : Product) (qty : ℤ) : Reach c → Reach (add_to_cart c row qty)
  | update (c : Cart) (pid qty : ℤ) (c' : Cart) :
      Reach c → update_qty c pid qty = .ok c' → Reach c'
  | remove (c : Cart) (pid : ℤ) : Reach c → Reach (remove_from_cart c pid)
  | clear (c : Cart) : Reach c → Reach []
  | imp (c : Cart) (data : JVal) : Reach c → Reach (import_cart c data).1

/-- Every line of the cart has positive quantity. -/
def qtyPos (cart : Cart) : Prop := ∀ p ∈ cart, 0 < p.2.qty

instance (cart : Cart) : Decidable (qtyPos cart) := by
  unfold qtyPos; infer_instance

/-! ### Rounding lemmas -/

theorem floor_both (a b : ℚ) (c : ℤ) (ha : (c:ℚ) ≤ a ∧ a < c + 1)
    (hb : (c:ℚ) ≤ b ∧ b < c + 1) : ⌊a⌋ = ⌊b⌋ := by
  rw [Int.floor_eq_iff.mpr ha, Int.floor_eq_iff.mpr hb]

/-- Rounding the fifth of a value before or after rounding the value to
the nearest integer gives the same result: the integer part contributes
multiples of one fifth, never landing within half of a tie. -/
theorem round_div_five (z : ℚ) : round (z / 5) = round ((round z : ℚ) / 5) := by
  set N : ℤ := round z with hN
  have hd1 : -(1/2) ≤ z - N := by
    rw [hN, round_eq]; have h := Int.floor_le (z + 1/2); linarith
  have hd2 : z - N < 1/2 := by
    rw [hN, round_eq]; have h := Int.lt_floor_add_one (z + 1/2); linarith
  obtain ⟨m, r, hr0, hr5, hNr⟩ : ∃ m r : ℤ, 0 ≤ r ∧ r < 5 ∧ N = 5 * m + r :=
    ⟨N / 5, N % 5, by omega, by omega, by omega⟩
  have hcast : (N : ℚ) = 5 * m + r := by exact_mod_cast congrArg (Int.cast : ℤ → ℚ) hNr
  have hz : z / 5 = (m : ℚ) + ((r + (z - N)) / 5) := by field_simp; linarith
  have hn : (N : ℚ) / 5 = (m : ℚ) + ((r : ℚ) / 5) := by field_simp; linarith
  rw [hz, hn, round_eq, round_eq, add_assoc, add_assoc, Int.floor_int_add, Int.floor_int_add]
  congr 1
  interval_cases r
  · refine floor_both _ _ 0 ⟨?_, ?_⟩ ⟨?_, ?_⟩ <;> push_cast <;> linarith
  · refine floor_both _ _ 0 ⟨?_, ?_⟩ ⟨?_, ?_⟩ <;> push_cast <;> linarith
  · refine floor_both _ _ 0 ⟨?_, ?_⟩ ⟨?_, ?_⟩ <;> push_cast <;> linarith
  · refine floor_both _ _ 1 ⟨?_, ?_⟩ ⟨?_, ?_⟩ <;> push_cast <;> linarith
  · refine floor_both _ _ 1 ⟨?_, ?_⟩ ⟨?_, ?_⟩ <;> push_cast <;> linarith

/-- Adding an exact multiple of one hundredth commutes with rounding the
other summand to two decimals first. -/
theorem round2_add_cents (x y : ℚ) (m : ℤ) (hy : y = (m : ℚ) / 100) :
    round2 (round2 x + y) = round2 (x + y) := by
  subst hy
  unfold round2
  have h1 : 100 * ((round (100 * x) : ℚ) / 100 + (m : ℚ) / 100)
      = ((round (100 * x) + m : ℤ) : ℚ) := by push_cast; ring
  have h2 : 100 * (x + (m : ℚ) / 100) = 100 * x + (m : ℚ) := by ring
  rw [h1, h2, round_intCast, round_add_int]

/-- Taxing the rounded subtotal equals taxing the raw total: the two-decimal
rounding of twenty percent is unaffected by rounding the base first. -/
theorem round2_tax (x : ℚ) : round2 (round2 x * 0.2) = round2 (x * 0.2) := by
  unfold round2
  have h1 : 100 * ((round (100 * x) : ℚ) / 100 * 0.2) = (round (100 * x) : ℚ) / 5 := by
    norm_num; ring
  have h2 : 100 * (x * 0.2) = 100 * x / 5 := by norm_num; ring
  rw [h1, h2, ← round_div_five]

/-- The shipping fee and the tax are exact multiples of one hundredth. -/
theorem shipping_tax_cents (cart : Cart) :
    ∃ m : ℤ, (cart_totals cart).shipping + (cart_totals cart).tax = (m : ℚ) / 100 := by
  show ∃ m : ℤ, (if (50:ℚ) ≤ rawTotal cart then 0 else if 0 < rawTotal cart then 4.99 else 0)
      + (round (100 * (rawTotal cart * 0.2)) : ℚ) / 100 = (m : ℚ) / 100
  by_cases h1 : (50:ℚ) ≤ rawTotal cart
  · exact ⟨round (100 * (rawTotal cart * 0.2)), by rw [if_pos h1]; ring⟩
  · by_cases h2 : (0:ℚ) < rawTotal cart
    · refine ⟨499 + round (100 * (rawTotal cart * 0.2)), ?_⟩
      rw [if_neg h1, if_pos h2]; push_cast; norm_num; ring
    · exact ⟨round (100 * (rawTotal cart * 0.2)), by rw [if_neg h1, if_neg h2]; ring⟩

/-! ### C1: the totals invariant -/

/-- C1 (amended): for every cart, the item count is the sum of the
quantities, the subtotal is the sum of price times qty rounded to two
decimals, the tax is twenty percent of the subtotal rounded to two
decimals, and the grand total is subtotal plus shipping plus tax rounded
to two decimals; the shipping fee, however, is decided on the unrounded
sum: 0 when that sum is at least 50, 4.99 when it is strictly between 0
and 50, and 0 otherwise. -/
theorem c1_totals_invariant (cart : Cart) :
    (cart_totals cart).n_items = (cart.map (fun p => p.2.qty)).sum ∧
    (cart_totals cart).subtotal = round2 ((cart.map (fun p => p.2.price * (p.2.qty : ℚ))).sum) ∧
    (cart_totals cart).shipping =
      (if 50 ≤ rawTotal cart then 0 else if 0 < rawTotal cart then 4.99 else 0) ∧
    (cart_totals cart).tax = round2 ((cart_totals cart).subtotal * 0.2) ∧
    (cart_totals cart).grand =
      round2 ((cart_totals cart).subtotal + (cart_totals cart).shipping + (cart_totals cart).tax) := by
  refine ⟨rfl, rfl, rfl, ?_, ?_⟩
  · show round2 (rawTotal cart * 0.2) = round2 (round2 (rawTotal cart) * 0.2)
    rw [round2_tax]
  · show round2 (rawTotal cart + (cart_totals cart).shipping + (cart_totals cart).tax)
      = round2 (round2 (rawTotal cart) + (cart_totals cart).shipping + (cart_totals cart).tax)
    obtain ⟨m, hm⟩ := shipping_tax_cents cart
    rw [add_assoc, add_assoc, ← round2_add_cents _ _ m hm]

/-- C1 is false as stated: cexCartA has subtotal 50.00, which the claim
says ships free, but the fee is 4.99 because the code compares the
unrounded total 49.999 against 50; cexCartB is a nonempty cart with
subtotal -5.00 (neither at least 50 nor zero), which the claim says
ships at 4.99, but the fee is 0. -/
theorem c1_counterexample :
    ((50:ℚ) ≤ (cart_totals cexCartA).subtotal ∧ (cart_totals cexCartA).shipping = 4.99) ∧
    (cexCartB ≠ [] ∧ (cart_totals cexCartB).subtotal = -5 ∧
      (cart_totals cexCartB).subtotal ≠ 0 ∧ ¬ (50:ℚ) ≤ (cart_totals cexCartB).subtotal ∧
      (cart_totals cexCartB).shipping = 0) := by
  have hA : rawTotal cexCartA = 49999/1000 := by
    simp [rawTotal, cexCartA]
  have hB : rawTotal cexCartB = -5 := by
    simp [rawTotal, cexCartB]
  refine ⟨⟨?_, ?_⟩, ?_, ?_, ?_, ?_, ?_⟩
  · show (50:ℚ) ≤ round2 (rawTotal cexCartA)
    rw [hA, round2, round_eq]
    norm_num
  · show (if (50:ℚ) ≤ rawTotal cexCartA then (0:ℚ) else if 0 < rawTotal cexCartA then 4.99 else 0) = 4.99
    rw [hA]
    norm_num
  · simp [cexCartB]
  · show round2 (rawTotal cexCartB) = -5
    rw [hB, round2, round_eq]
    norm_num
  · show round2 (rawTotal cexCartB) ≠ 0
    rw [hB, round2, round_eq]
    norm_num
  · show ¬ (50:ℚ) ≤ round2 (rawTotal cexCartB)
    rw [hB, round2, round_eq]
    norm_num
  · show (if (50:ℚ) ≤ rawTotal cexCartB then (0:ℚ) else if 0 < rawTotal cexCartB then 4.99 else 0) = 0
    rw [hB]
    norm_num

/-! ### Association-list lemmas for the cart -/

theorem Cart.lookup_nil (k : ℤ) : Cart.lookup [] k = none := rfl

theorem Cart.lookup_cons (a : ℤ × CartItem) (t : Cart) (k : ℤ) :
    Cart.lookup (a :: t) k = if a.1 = k then some a.2 else Cart.lookup t k := rfl

theorem Cart.lookup_append (c1 c2 : Cart) (k : ℤ) :
    Cart.lookup (c1 ++ c2) k =
      match Cart.lookup c1 k with
      | some it => some it
      | none => Cart.lookup c2 k := by
  induction c1 with
  | nil => rfl
  | cons a t ih =>
    by_cases h : a.1 = k
    · simp [Cart.lookup, h]
    · simp [Cart.lookup, h, ih]

/-- Rewriting the value stored under one key changes only that key. -/
theorem Cart.lookup_mapUpdate (cart : Cart) (pid : ℤ) (g : CartItem → CartItem) (k : ℤ) :
    Cart.lookup (cart.map (fun p => if p.1 = pid then (p.1, g p.2) else p)) k
      = if k = pid then (Cart.lookup cart pid).map g else Cart.lookup cart k := by
  induction cart with
  | nil => simp [Cart.lookup]
  | cons a t ih =>
    rw [List.map_cons]
    by_cases hk : k = pid
    · subst hk
      by_cases ha : a.1 = k
      · subst ha
        simp [Cart.lookup]
      · simp [Cart.lookup, ha, ih]
    · by_cases ha : a.1 = pid
      · subst ha
        have hak : ¬ a.1 = k := fun h => hk h.symm
        simp [Cart.lookup, hk, hak, ih]
      · by_cases hak : a.1 = k
        · simp [Cart.lookup, ha, hak, hk]
        · simp [Cart.lookup, ha, hak, hk, ih]

/-- Filtering one key out changes only that key. -/
theorem Cart.lookup_filterOut (cart : Cart) (pid : ℤ) (k : ℤ) :
    Cart.lookup (cart.filter (fun p => p.1 != pid)) k
      = if k = pid then none else Cart.lookup cart k := by
  induction cart with
  | nil => simp [Cart.lookup]
  | cons a t ih =>
    by_cases hk : k = pid
    · subst hk
      by_cases ha : a.1 = k
      · simp [List.filter_cons, ha, ih]
      · simp [List.filter_cons, Cart.lookup, ha, ih]
    · by_cases ha : a.1 = pid
      · have hak : ¬ a.1 = k := fun h => hk (h.symm.trans ha)
        have hpk : ¬ pid = k := fun h => hk h.symm
        simp [List.filter_cons, Cart.lookup, ha, hak, hpk, hk, ih]
      · simp [List.filter_cons, Cart.lookup, ha, hk, ih]

theorem remove_from_cart_lookup (cart : Cart) (pid : ℤ) (k : ℤ) :
    Cart.lookup (remove_from_cart cart pid) k = if k = pid then none else Cart.lookup cart k :=
  Cart.lookup_filterOut cart pid k

/-- Lookup after a dict assignment cart[pid] = item. -/
theorem Cart.lookup_dictInsert (cart : Cart) (pid : ℤ) (item : CartItem) (k : ℤ) :
    Cart.lookup (cart.dictInsert pid item) k
      = if k = pid then some item else Cart.lookup cart k := by
  unfold Cart.dictInsert
  by_cases h : (Cart.lookup cart pid).isSome
  · rw [if_pos h, Cart.lookup_mapUpdate cart pid (fun _ => item) k]
    by_cases hk : k = pid
    · obtain ⟨it, hit⟩ := Option.isSome_iff_exists.mp h
      simp [hk, hit]
    · simp [hk]
  · rw [if_neg h, Cart.lookup_append]
    have hnone : Cart.lookup cart pid = none := Option.not_isSome_iff_eq_none.mp h
    by_cases hk : k = pid
    · subst hk
      simp [hnone, Cart.lookup]
    · cases hc : Cart.lookup cart k with
      | none =>
        have hpk : ¬ pid = k := fun h2 => hk h2.symm
        simp [hc, Cart.lookup, hpk, hk]
      | some v => simp [hc, hk]

/-! ### C3: AddToCart -/

/-- C3: adding qty of a product is a no-op for qty at most 0; when the
product id is already in the cart it only increments that line by qty,
keeping the stored title and price and every other line; otherwise it
appends a fresh line carrying the current title and price of the product
and quantity qty. -/
theorem c3_add_to_cart (cart : Cart) (row : Product) (qty : ℤ) :
    (qty ≤ 0 → add_to_cart cart row qty = cart) ∧
    (∀ it, Cart.lookup cart row.id = some it → 0 < qty →
      Cart.lookup (add_to_cart cart row qty) row.id = some { it with qty := it.qty + qty } ∧
      ∀ k, k ≠ row.id → Cart.lookup (add_to_cart cart row qty) k = Cart.lookup cart k) ∧
    (Cart.lookup cart row.id = none → 0 < qty →
      add_to_cart cart row qty
        = cart ++ [(row.id, { title := row.title, price := row.price, qty := qty })]) := by
  refine ⟨fun h => by rw [add_to_cart, if_pos h], ?_, ?_⟩
  · intro it hit hq
    have hq' : ¬ qty ≤ 0 := not_le.mpr hq
    have hs : (Cart.lookup cart row.id).isSome := by rw [hit]; rfl
    constructor
    · rw [add_to_cart, if_neg hq', if_pos hs,
        Cart.lookup_mapUpdate cart row.id (fun x => { x with qty := x.qty + qty }) row.id,
        if_pos rfl, hit]
      rfl
    · intro k hk
      rw [add_to_cart, if_neg hq', if_pos hs,
        Cart.lookup_mapUpdate cart row.id (fun x => { x with qty := x.qty + qty }) k,
        if_neg hk]
  · intro hnone hq
    have hq' : ¬ qty ≤ 0 := not_le.mpr hq
    have hs : ¬ (Cart.lookup cart row.id).isSome := by rw [hnone]; simp
    rw [add_to_cart, if_neg hq', if_neg hs]

/-- C3 witness: adding 3 Gadgets onto an existing line for id 1 that was
stored as Widget at price 10 leaves title and price alone and bumps the
quantity from 2 to 5. -/
theorem c3_add_to_cart_witness :
    Cart.lookup (add_to_cart [(1, ⟨"Widget", 10, 2⟩)] ⟨1, "Gadget", 12⟩ 3) 1
      = some ⟨"Widget", 10, 5⟩ := by
  have h := ((c3_add_to_cart [(1, ⟨"Widget", 10, 2⟩)] ⟨1, "Gadget", 12⟩ 3).2.1
    ⟨"Widget", 10, 2⟩ rfl (by norm_num)).1
  simpa using h

/-! ### C4: UpdateQuantity -/

/-- C4 is false as stated: updating an absent id with a positive
quantity is not a silent no-op; the assignment cart[pid] raises
KeyError on the empty cart. -/
theorem c4_counterexample : update_qty [] 1 2 = .error "KeyError" := rfl

/-- C4 (amended): for qty at most 0 the update equals RemoveFromCart,
also for absent ids; for positive qty on a present id it sets that line
to exactly qty, leaving all other lines alone; for positive qty on an
absent id it raises KeyError instead of being a silent no-op, leaving
the cart as it was. -/
theorem c4_update_qty (cart : Cart) (pid qty : ℤ) :
    (qty ≤ 0 → update_qty cart pid qty = .ok (remove_from_cart cart pid)) ∧
    (∀ it, 0 < qty → Cart.lookup cart pid = some it →
      ∃ c', update_qty cart pid qty = .ok c' ∧
        Cart.lookup c' pid = some { it with qty := qty } ∧
        ∀ k, k ≠ pid → Cart.lookup c' k = Cart.lookup cart k) ∧
    (0 < qty → Cart.lookup cart pid = none → update_qty cart pid qty = .error "KeyError") := by
  refine ⟨fun h => by rw [update_qty, if_pos h], ?_, ?_⟩
  · intro it hq hit
    have hq' : ¬ qty ≤ 0 := not_le.mpr hq
    have hs : (Cart.lookup cart pid).isSome := by rw [hit]; rfl
    refine ⟨cart.map (fun p => if p.1 = pid then (p.1, { p.2 with qty := qty }) else p),
      by rw [update_qty, if_neg hq', if_pos hs], ?_, ?_⟩
    · rw [Cart.lookup_mapUpdate cart pid (fun x => { x with qty := qty }) pid, if_pos rfl, hit]
      rfl
    · intro k hk
      rw [Cart.lookup_mapUpdate cart pid (fun x => { x with qty := qty }) k, if_neg hk]
  · intro hq hnone
    have hq' : ¬ qty ≤ 0 := not_le.mpr hq
    have hs : ¬ (Cart.lookup cart pid).isSome := by rw [hnone]; simp
    rw [update_qty, if_neg hq', if_neg hs]

/-- C4 witness: setting id 1 to quantity 7 in a two-line cart rewrites
that line to quantity 7 (an absolute set, the old quantity 2 is gone)
and setting with qty 0 removes the line. -/
theorem c4_update_qty_witness :
    (∃ c', update_qty [(1, ⟨"W", 10, 2⟩), (2, ⟨"V", 3, 1⟩)] 1 7 = .ok c' ∧
      Cart.lookup c' 1 = some ⟨"W", 10, 7⟩ ∧
      ∀ k, k ≠ 1 → Cart.lookup c' k = Cart.lookup [(1, ⟨"W", 10, 2⟩), (2, ⟨"V", 3, 1⟩)] k) ∧
    update_qty [(1, ⟨"W", 10, 2⟩), (2, ⟨"V", 3, 1⟩)] 2 0
      = .ok (remove_from_cart [(1, ⟨"W", 10, 2⟩), (2, ⟨"V", 3, 1⟩)] 2) := by
  constructor
  · have h := (c4_update_qty [(1, ⟨"W", 10, 2⟩), (2, ⟨"V", 3, 1⟩)] 1 7).2.1
      ⟨"W", 10, 2⟩ (by norm_num) rfl
    simpa using h
  · exact (c4_update_qty [(1, ⟨"W", 10, 2⟩), (2, ⟨"V", 3, 1⟩)] 2 0).1 le_rfl

/-! ### C2: Checkout -/

/-- The totals of the single-line Widget cart of the specification
example evaluate to 20.00, 4.99, 4.00 and 28.99. -/
theorem cart_totals_widget :
    cart_totals [(1, ⟨"Widget", 10, 2⟩)] = ⟨2, 20, 4.99, 4, 28.99⟩ := by
  have hraw : rawTotal [(1, ⟨"Widget", 10, 2⟩)] = 20 := by
    norm_num [rawTotal]
  have hcnt : itemCount [(1, ⟨"Widget", 10, 2⟩)] = 2 := by
    norm_num [itemCount]
  show (⟨itemCount _, round2 (rawTotal _),
      if 50 ≤ rawTotal _ then 0 else if 0 < rawTotal _ then 4.99 else 0,
      round2 (rawTotal _ * 0.2),
      round2 (rawTotal _ + (if 50 ≤ rawTotal _ then 0 else if 0 < rawTotal _ then 4.99 else 0)
        + round2 (rawTotal _ * 0.2))⟩ : Totals) = ⟨2, 20, 4.99, 4, 28.99⟩
  rw [hraw, hcnt]
  norm_num [round2, round_eq]

/-- C2: with a non-empty cart, non-empty name, email and address and the
terms agreed, checkout appends exactly one order to the ledger carrying
the order id ORD- plus the UTC timestamp formatted YYYYMMDD-HHMMSS, a
snapshot of the cart lines and of the totals, and then clears the cart;
on the single-line Widget cart it yields subtotal 20.00, shipping 4.99,
tax 4.00, grand 28.99 and an empty cart. -/
theorem c2_checkout :
    (∀ (s : AppState) (c : Customer) (agree : Bool) (now : Timestamp),
      s.cart ≠ [] → c.name ≠ "" → c.email ≠ "" → c.address ≠ "" → agree = true →
      checkout s c agree now =
        { cart := []
          orders := s.orders ++ [{ ts := now, name := c.name, email := c.email,
                                   address := c.address, items := s.cart,
                                   totals := cart_totals s.cart,
                                   order_id := "ORD-" ++ formatTs now }] }) ∧
    (cart_totals [(1, ⟨"Widget", 10, 2⟩)]).subtotal = 20 ∧
    (cart_totals [(1, ⟨"Widget", 10, 2⟩)]).shipping = 4.99 ∧
    (cart_totals [(1, ⟨"Widget", 10, 2⟩)]).tax = 4 ∧
    (cart_totals [(1, ⟨"Widget", 10, 2⟩)]).grand = 28.99 ∧
    (checkout ⟨[(1, ⟨"Widget", 10, 2⟩)], []⟩ ⟨"Ada", "ada@mail.test", "1 Main St"⟩ true
        ⟨2025, 1, 2, 3, 4, 5⟩).cart = [] ∧
    (checkout ⟨[(1, ⟨"Widget", 10, 2⟩)], []⟩ ⟨"Ada", "ada@mail.test", "1 Main St"⟩ true
        ⟨2025, 1, 2, 3, 4, 5⟩).orders
      = [{ ts := ⟨2025, 1, 2, 3, 4, 5⟩, name := "Ada", email := "ada@mail.test",
           address := "1 Main St", items := [(1, ⟨"Widget", 10, 2⟩)],
           totals := ⟨2, 20, 4.99, 4, 28.99⟩, order_id := "ORD-20250102-030405" }] := by
  have hmain : ∀ (s : AppState) (c : Customer) (agree : Bool) (now : Timestamp),
      s.cart ≠ [] → c.name ≠ "" → c.email ≠ "" → c.address ≠ "" → agree = true →
      checkout s c agree now =
        { cart := []
          orders := s.orders ++ [{ ts := now, name := c.name, email := c.email,
                                   address := c.address, items := s.cart,
                                   totals := cart_totals s.cart,
                                   order_id := "ORD-" ++ formatTs now }] } := by
    intro s c agree now h1 h2 h3 h4 h5
    have hcart : s.cart.isEmpty = false := by
      cases hc : s.cart with
      | nil => exact absurd hc h1
      | cons a t => rfl
    have hcp : can_pay s c agree = true := by
      simp [can_pay, hcart, h2, h3, h4, h5]
    simp [checkout, hcp]
  refine ⟨hmain, ?_, ?_, ?_, ?_, ?_, ?_⟩
  · rw [cart_totals_widget]
  · rw [cart_totals_widget]
  · rw [cart_totals_widget]
  · rw [cart_totals_widget]
  · rw [hmain ⟨[(1, ⟨"Widget", 10, 2⟩)], []⟩ ⟨"Ada", "ada@mail.test", "1 Main St"⟩ true
      ⟨2025, 1, 2, 3, 4, 5⟩ (by simp) (by simp) (by simp) (by simp) rfl]
  · rw [hmain ⟨[(1, ⟨"Widget", 10, 2⟩)], []⟩ ⟨"Ada", "ada@mail.test", "1 Main St"⟩ true
      ⟨2025, 1, 2, 3, 4, 5⟩ (by simp) (by simp) (by simp) (by simp) rfl]
    rw [cart_totals_widget]
    rfl

/-- C2 witness: the general checkout shape applied to the concrete
Widget cart and customer. -/
theorem c2_checkout_witness :
    checkout ⟨[(1, ⟨"Widget", 10, 2⟩)], []⟩ ⟨"Bea", "bea@mail.test", "2 Oak Av"⟩ true
        ⟨2024, 12, 31, 23, 59, 58⟩
      = { cart := []
          orders := [{ ts := ⟨2024, 12, 31, 23, 59, 58⟩, name := "Bea", email := "bea@mail.test",
                       address := "2 Oak Av", items := [(1, ⟨"Widget", 10, 2⟩)],
                       totals := cart_totals [(1, ⟨"Widget", 10, 2⟩)],
                       order_id := "ORD-" ++ formatTs ⟨2024, 12, 31, 23, 59, 58⟩ }] } := by
  exact c2_checkout.1 ⟨[(1, ⟨"Widget", 10, 2⟩)], []⟩ ⟨"Bea", "bea@mail.test", "2 Oak Av"⟩ true
    ⟨2024, 12, 31, 23, 59, 58⟩ (by simp) (by simp) (by simp) (by simp) rfl

/-! ### C8: pagination -/

/-- The integer formula (n + p - 1) / p computes the ceiling of n / p. -/
theorem natCeilDiv (n p : ℕ) (hp : 0 < p) :
    (((n + p - 1) / p : ℕ) : ℤ) = ⌈(n : ℚ) / (p : ℚ)⌉ := by
  set d : ℕ := (n + p - 1) / p with hd
  have hdm := Nat.div_add_mod (n + p - 1) p
  have hr : (n + p - 1) % p < p := Nat.mod_lt _ hp
  set r : ℕ := (n + p - 1) % p with hrdef
  set e : ℕ := p * d with hedef
  have hsum : e + r + 1 = n + p := by omega
  have h1 : n ≤ e := by omega
  have hez : (e : ℤ) = (p : ℤ) * (d : ℤ) := by exact_mod_cast hedef
  have hsumz : (e : ℤ) + (r : ℤ) + 1 = (n : ℤ) + (p : ℤ) := by exact_mod_cast hsum
  have h1z : (n : ℤ) ≤ (e : ℤ) := by exact_mod_cast h1
  have hrnn : (0 : ℤ) ≤ (r : ℤ) := Int.ofNat_nonneg _
  have hpz : (1 : ℤ) ≤ (p : ℤ) := by exact_mod_cast hp
  have h2 : (p : ℤ) * ((d : ℤ) - 1) < n := by
    have hx : (p : ℤ) * ((d : ℤ) - 1) = (e : ℤ) - (p : ℤ) := by rw [hez]; ring
    rw [hx]
    linarith
  have h1e : (n : ℤ) ≤ (p : ℤ) * (d : ℤ) := by rw [← hez]; exact h1z
  have hp2 : (0 : ℚ) < (p : ℚ) := by exact_mod_cast hp
  symm
  rw [Int.ceil_eq_iff]
  constructor
  · rw [lt_div_iff₀ hp2]
    have hq : (p : ℚ) * ((d : ℚ) - 1) < (n : ℚ) := by exact_mod_cast h2
    push_cast
    linarith
  · rw [div_le_iff₀ hp2]
    have hq : (n : ℚ) ≤ (p : ℚ) * (d : ℚ) := by exact_mod_cast h1e
    push_cast
    linarith

/-- C8: the page number is 1-based and clamped into [1, pages] where
pages is the ceiling of total over page size, at least 1 even for an
empty list, and the result is the slice [(page-1)*size, page*size) of
the items; with 25 items, page size 12 and requested page 10 the page
clamps to 3 and exactly the single item of index 24 is returned. -/
theorem c8_paginate :
    (∀ (α : Type) (products : List α) (perPage : ℕ) (pageReq : ℤ), 0 < perPage →
      ∃ pages page : ℤ,
        pages = max 1 ⌈(products.length : ℚ) / (perPage : ℚ)⌉ ∧
        page = max 1 (min pageReq pages) ∧
        1 ≤ page ∧ page ≤ pages ∧
        paginate products perPage pageReq
          = (products.drop ((page - 1).toNat * perPage)).take perPage) ∧
    (∃ pg : ℤ, pg = max 1 (min 10 (max 1 ⌈(25 : ℚ) / (12 : ℚ)⌉)) ∧ pg = 3) ∧
    paginate (List.range 25) 12 10 = [24] := by
  refine ⟨?_, ⟨3, ?_, rfl⟩, ?_⟩
  · intro α products perPage pageReq hp
    refine ⟨((max 1 ((products.length + perPage - 1) / perPage) : ℕ) : ℤ),
      max 1 (min pageReq ((max 1 ((products.length + perPage - 1) / perPage) : ℕ) : ℤ)),
      ?_, rfl, le_max_left _ _, ?_, rfl⟩
    · rw [Nat.cast_max, natCeilDiv _ _ hp, Nat.cast_one]
    · refine max_le ?_ (min_le_right _ _)
      have h1 : (1 : ℕ) ≤ max 1 ((products.length + perPage - 1) / perPage) := le_max_left _ _
      exact_mod_cast h1
  · have hceil : ⌈(25 : ℚ) / (12 : ℚ)⌉ = 3 := by
      rw [Int.ceil_eq_iff]
      norm_num
    rw [hceil]
    decide
  · rfl

/-- C8 witness: the general pagination shape at the concrete instance of
the claim, 25 items of page size 12 with requested page 10. -/
theorem c8_paginate_witness :
    ∃ pages page : ℤ,
      pages = max 1 ⌈((List.range 25).length : ℚ) / ((12 : ℕ) : ℚ)⌉ ∧
      page = max 1 (min 10 pages) ∧
      1 ≤ page ∧ page ≤ pages ∧
      paginate (List.range 25) 12 10
        = ((List.range 25).drop ((page - 1).toNat * 12)).take 12 :=
  c8_paginate.1 ℕ (List.range 25) 12 10 (by norm_num)

/-! ### C9: the positive-quantity invariant -/

theorem qtyPos_dictInsert (cart : Cart) (pid : ℤ) (item : CartItem)
    (hc : qtyPos cart) (hi : 0 < item.qty) : qtyPos (cart.dictInsert pid item) := by
  intro p hp
  unfold Cart.dictInsert at hp
  by_cases h : (Cart.lookup cart pid).isSome
  · rw [if_pos h] at hp
    obtain ⟨q, hq, hpq⟩ := List.mem_map.mp hp
    by_cases hqp : q.1 = pid
    · rw [if_pos hqp] at hpq
      rw [← hpq]
      exact hi
    · rw [if_neg hqp] at hpq
      rw [← hpq]
      exact hc q hq
  · rw [if_neg h] at hp
    rcases List.mem_append.mp hp with h1 | h1
    · exact hc p h1
    · rw [List.mem_singleton.mp h1]
      exact hi

theorem qtyPos_importLines (es : List JVal) (acc : Cart) (c' : Cart)
    (hacc : qtyPos acc) (h : importLines acc es = .ok c') : qtyPos c' := by
  induction es generalizing acc with
  | nil =>
    rw [importLines] at h
    cases h
    exact hacc
  | cons e es ih =>
    rw [importLines] at h
    cases hpe : parseEntry e with
    | error err => rw [hpe] at h; cases h
    | ok pi =>
      obtain ⟨pid, item⟩ := pi
      rw [hpe] at h
      dsimp only at h
      by_cases hq : 0 < item.qty
      · rw [if_pos hq] at h
        exact ih _ (qtyPos_dictInsert acc pid item hacc hq) h
      · rw [if_neg hq] at h
        exact ih _ hacc h

/-- C9: every cart reachable from the empty cart through AddToCart,
UpdateQuantity, RemoveFromCart, ClearCart and Import has strictly
positive quantity on every present line. -/
theorem c9_qty_invariant (cart : Cart) (h : Reach cart) : qtyPos cart := by
  induction h with
  | empty => intro p hp; cases hp
  | add c row qty _ ih =>
    intro p hp
    unfold add_to_cart at hp
    by_cases h0 : qty ≤ 0
    · rw [if_pos h0] at hp
      exact ih p hp
    · rw [if_neg h0] at hp
      have hqpos : 0 < qty := lt_of_not_le h0
      by_cases h1 : (Cart.lookup c row.id).isSome
      · rw [if_pos h1] at hp
        obtain ⟨q, hq, hpq⟩ := List.mem_map.mp hp
        by_cases hqp : q.1 = row.id
        · rw [if_pos hqp] at hpq
          rw [← hpq]
          have := ih q hq
          simp only []
          omega
        · rw [if_neg hqp] at hpq
          rw [← hpq]
          exact ih q hq
      · rw [if_neg h1] at hp
        rcases List.mem_append.mp hp with h2 | h2
        · exact ih p h2
        · rw [List.mem_singleton.mp h2]
          exact hqpos
  | update c pid qty c' _ hok ih =>
    intro p hp
    unfold update_qty at hok
    by_cases h0 : qty ≤ 0
    · rw [if_pos h0] at hok
      cases hok
      unfold remove_from_cart at hp
      exact ih p (List.mem_of_mem_filter hp)
    · rw [if_neg h0] at hok
      have hqpos : 0 < qty := lt_of_not_le h0
      by_cases h1 : (Cart.lookup c pid).isSome
      · rw [if_pos h1] at hok
        cases hok
        obtain ⟨q, hq, hpq⟩ := List.mem_map.mp hp
        by_cases hqp : q.1 = pid
        · rw [if_pos hqp] at hpq
          rw [← hpq]
          exact hqpos
        · rw [if_neg hqp] at hpq
          rw [← hpq]
          exact ih q hq
      · rw [if_neg h1] at hok
        cases hok
  | remove c pid _ ih =>
    intro p hp
    unfold remove_from_cart at hp
    exact ih p (List.mem_of_mem_filter hp)
  | clear c _ _ =>
    intro p hp
    cases hp
  | imp c data _ ih =>
    unfold import_cart
    cases data with
    | jarr es =>
      cases him : importLines [] es with
      | ok newCart =>
        simp only [him]
        exact qtyPos_importLines es [] newCart (fun p hp => absurd hp (List.not_mem_nil p)) him
      | error err =>
        simp only [him]
        exact ih
    | null => exact ih
    | jbool b => exact ih
    | jnum q => exact ih
    | jstr s => exact ih
    | jobj fields => exact ih

/-- C9 witness: a concrete reachable cart, built by an add followed by
an import, and the positivity of its single line. -/
theorem c9_qty_invariant_witness :
    0 < (((3 : ℤ), (⟨"T", 5, 2⟩ : CartItem)).2.qty) ∧
    qtyPos (import_cart (add_to_cart [] ⟨7, "Old", 1⟩ 4)
      (.jarr [.jobj [("id", .jnum 3), ("title", .jstr "T"), ("price", .jnum 5),
                     ("qty", .jnum 2)]])).1 := by
  constructor
  · norm_num
  · exact c9_qty_invariant _ (Reach.imp _ _ (Reach.add [] ⟨7, "Old", 1⟩ 4 Reach.empty))

/-! ### C10: duplicate ids in an import payload -/

theorem Cart.lookup_eq_none_iff (cart : Cart) (pid : ℤ) :
    Cart.lookup cart pid = none ↔ pid ∉ cart.map Prod.fst := by
  induction cart with
  | nil => simp [Cart.lookup]
  | cons a t ih =>
    rw [Cart.lookup_cons, List.map_cons, List.mem_cons]
    by_cases h : a.1 = pid
    · simp [h]
    · have h2 : ¬ pid = a.1 := fun hh => h hh.symm
      simp [h, h2, ih]

theorem keysNodup_dictInsert (cart : Cart) (pid : ℤ) (item : CartItem)
    (h : cart.keysNodup) : (cart.dictInsert pid item).keysNodup := by
  unfold Cart.dictInsert
  by_cases hs : (Cart.lookup cart pid).isSome
  · rw [if_pos hs]
    unfold Cart.keysNodup at h ⊢
    have hkeys : (cart.map (fun p => if p.1 = pid then (p.1, item) else p)).map Prod.fst
        = cart.map Prod.fst := by
      rw [List.map_map]
      apply List.map_congr_left
      intro a _
      by_cases h1 : a.1 = pid
      · simp [h1]
      · simp [h1]
    rw [hkeys]
    exact h
  · rw [if_neg hs]
    unfold Cart.keysNodup at h ⊢
    rw [List.map_append, List.nodup_append]
    refine ⟨h, List.nodup_singleton _, ?_⟩
    intro a ha hb
    have hb2 : a = pid := by simpa using hb
    subst hb2
    have hnone : Cart.lookup cart a = none := Option.not_isSome_iff_eq_none.mp hs
    exact (Cart.lookup_eq_none_iff cart a).mp hnone ha

theorem keysNodup_importLines (es : List JVal) (acc : Cart) (c2 : Cart)
    (hacc : acc.keysNodup) (h : importLines acc es = .ok c2) : c2.keysNodup := by
  induction es generalizing acc with
  | nil =>
    rw [importLines] at h
    cases h
    exact hacc
  | cons e es ih =>
    rw [importLines] at h
    cases hpe : parseEntry e with
    | error err => rw [hpe] at h; cases h
    | ok pi =>
      obtain ⟨pid, item⟩ := pi
      rw [hpe] at h
      dsimp only at h
      by_cases hq : 0 < item.qty
      · rw [if_pos hq] at h
        exact ih _ (keysNodup_dictInsert acc pid item hacc) h
      · rw [if_neg hq] at h
        exact ih _ hacc h

/-- The import loop realizes last-assignment-wins: the line stored under
an id is the one of the last positive-quantity entry carrying that id,
and ids untouched by the payload keep the accumulator value. -/
theorem importLines_lookup (es : List JVal) (acc : Cart) (c2 : Cart)
    (h : importLines acc es = .ok c2) (pid : ℤ) :
    Cart.lookup c2 pid =
      match lastEntryFor es pid with
      | some it => some it
      | none => Cart.lookup acc pid := by
  induction es generalizing acc with
  | nil =>
    rw [importLines] at h
    cases h
    rfl
  | cons e es ih =>
    rw [importLines] at h
    cases hpe : parseEntry e with
    | error err => rw [hpe] at h; cases h
    | ok pi =>
      obtain ⟨p, item⟩ := pi
      rw [hpe] at h
      dsimp only at h
      have hlast : lastEntryFor (e :: es) pid =
          match lastEntryFor es pid with
          | some it => some it
          | none => if p = pid ∧ 0 < item.qty then some item else none := by
        rw [lastEntryFor, hpe]
      rw [hlast]
      by_cases hq : 0 < item.qty
      · rw [if_pos hq] at h
        rw [ih _ h]
        cases hle : lastEntryFor es pid with
        | some it => rfl
        | none =>
          by_cases hcond : p = pid ∧ 0 < item.qty
          · rw [if_pos hcond, Cart.lookup_dictInsert, if_pos hcond.1.symm]
          · have hpp : ¬ p = pid := fun hp => hcond ⟨hp, hq⟩
            rw [if_neg hcond, Cart.lookup_dictInsert, if_neg (fun h2 => hpp h2.symm)]
      · rw [if_neg hq] at h
        rw [ih _ h]
        cases hle : lastEntryFor es pid with
        | some it => rfl
        | none =>
          rw [if_neg (fun hc : p = pid ∧ 0 < item.qty => hq hc.2)]

/-- C10: a successfully imported payload yields a cart with pairwise
distinct ids in which the line stored under any id is exactly the
parsed line of the last entry of the payload carrying that id with a
positive quantity: later duplicates overwrite earlier ones and
quantities are never accumulated. -/
theorem c10_import_last_wins (cart0 : Cart) (es : List JVal) (c2 : Cart)
    (h : import_cart cart0 (.jarr es) = (c2, none)) :
    c2.keysNodup ∧ ∀ pid, Cart.lookup c2 pid = lastEntryFor es pid := by
  have him : importLines [] es = .ok c2 := by
    rw [import_cart] at h
    cases hil : importLines [] es with
    | ok nc =>
      rw [hil] at h
      cases h
      rfl
    | error err =>
      rw [hil] at h
      cases h
  constructor
  · exact keysNodup_importLines es [] c2 (by simp [Cart.keysNodup]) him
  · intro pid
    rw [importLines_lookup es [] c2 him pid]
    cases lastEntryFor es pid with
    | some it => rfl
    | none => rfl

/-- C10 witness: a payload with two positive entries for id 1 imports to
a cart whose single line for id 1 is the later entry, title B, price 7,
quantity 3, not an accumulation. -/
theorem c10_import_last_wins_witness :
    Cart.lookup [((1 : ℤ), (⟨"B", 7, 3⟩ : CartItem))] 1
      = lastEntryFor
          [.jobj [("id", .jnum 1), ("title", .jstr "A"), ("price", .jnum 5), ("qty", .jnum 2)],
           .jobj [("id", .jnum 1), ("title", .jstr "B"), ("price", .jnum 7), ("qty", .jnum 3)]]
          1 :=
  (c10_import_last_wins []
    [.jobj [("id", .jnum 1), ("title", .jstr "A"), ("price", .jnum 5), ("qty", .jnum 2)],
     .jobj [("id", .jnum 1), ("title", .jstr "B"), ("price", .jnum 7), ("qty", .jnum 3)]]
    [((1 : ℤ), (⟨"B", 7, 3⟩ : CartItem))] (by decide)).2 1

/-! ### C5: import error handling -/

/-- C5 is false as stated: a payload whose single entry has id and price
but no title does not fail with ValidationError; the missing title is
coerced by str(None) to the string None and the entry is imported. -/
theorem c5_counterexample :
    import_cart [] (.jarr [.jobj [("id", .jnum 1), ("price", .jnum 3)]])
      = ([(1, ⟨"None", 3, 1⟩)], none) := by decide

/-- C5 (amended): import fails with FormatError when the top level is
not a sequence; an entry that is not an object, an entry with a missing
id or price, or an id, price or qty that fails to convert, fails with
ValidationError; a missing title does not fail and is stored as the
string None; entries whose qty is not positive are silently dropped; on
success the parsed lines replace the whole cart; on failure the prior
cart is returned unchanged with the error recorded. -/
theorem c5_import (cart : Cart) (data : JVal) :
    ((∀ es, data ≠ .jarr es) → import_cart cart data = (cart, some .formatError)) ∧
    (∀ es err, data = .jarr es → importLines [] es = .error err →
      import_cart cart data = (cart, some err)) ∧
    (∀ es c2, data = .jarr es → importLines [] es = .ok c2 →
      import_cart cart data = (c2, none)) ∧
    (∀ e, (∀ fields, e ≠ .jobj fields) → parseEntry e = .error .validationError) ∧
    (∀ fields, objGet fields "id" = .null → parseEntry (.jobj fields) = .error .validationError) ∧
    (∀ fields, objGet fields "price" = .null →
      parseEntry (.jobj fields) = .error .validationError) ∧
    (∀ fields pid item, parseEntry (.jobj fields) = .ok (pid, item) →
      objGet fields "title" = .null → item.title = "None") ∧
    (∀ (acc : Cart) e es pid item, parseEntry e = .ok (pid, item) → item.qty ≤ 0 →
      importLines acc (e :: es) = importLines acc es) := by
  refine ⟨?_, ?_, ?_, ?_, ?_, ?_, ?_, ?_⟩
  · intro hne
    cases data with
    | jarr es => exact absurd rfl (hne es)
    | null => rfl
    | jbool b => rfl
    | jnum q => rfl
    | jstr s => rfl
    | jobj fields => rfl
  · intro es err hdata hil
    subst hdata
    simp [import_cart, hil]
  · intro es c2 hdata hil
    subst hdata
    simp [import_cart, hil]
  · intro e hne
    cases e with
    | jobj fields => exact absurd rfl (hne fields)
    | null => rfl
    | jbool b => rfl
    | jnum q => rfl
    | jstr s => rfl
    | jarr xs => rfl
  · intro fields hid
    simp only [parseEntry, hid]
    rfl
  · intro fields hprice
    cases hpid : pyInt (objGet fields "id") with
    | none => simp [parseEntry, hpid]
    | some pid0 =>
      simp only [parseEntry, hpid, hprice]
      rfl
  · intro fields pid item hok htitle
    simp only [parseEntry] at hok
    cases h1 : pyInt (objGet fields "id") with
    | none => rw [h1] at hok; cases hok
    | some pid0 =>
      rw [h1] at hok
      dsimp only at hok
      cases h2 : pyFloat (objGet fields "price") with
      | none => rw [h2] at hok; cases hok
      | some price0 =>
        rw [h2] at hok
        dsimp only at hok
        cases h3 : pyInt (objGetD fields "qty" (.jnum 1)) with
        | none => rw [h3] at hok; cases hok
        | some qty0 =>
          rw [h3] at hok
          dsimp only at hok
          cases hok
          rw [htitle]
          rfl
  · intro acc e es pid item hok hqty
    rw [importLines, hok]
    dsimp only
    rw [if_neg (not_lt.mpr hqty)]

/-- C5 witness: a non-sequence payload, an object at the top level,
fails with FormatError and leaves the prior cart untouched. -/
theorem c5_import_witness :
    import_cart [((5 : ℤ), (⟨"Z", 1, 1⟩ : CartItem))] (.jobj [])
      = ([((5 : ℤ), (⟨"Z", 1, 1⟩ : CartItem))], some .formatError) :=
  (c5_import [((5 : ℤ), (⟨"Z", 1, 1⟩ : CartItem))] (.jobj [])).1
    (fun _ h => JVal.noConfusion h)

/-! ### C7: export/import round trip -/

theorem pyTrunc_intCast (k : ℤ) : pyTrunc ((k : ℤ) : ℚ) = k := by
  unfold pyTrunc
  by_cases h : ((k : ℚ)) < 0
  · rw [if_pos h, ← Int.cast_neg, Int.floor_intCast, neg_neg]
  · rw [if_neg h, Int.floor_intCast]

/-- Reading back one exported line recovers exactly the cart line. -/
theorem parseEntry_exportLine (p : ℤ × CartItem) :
    parseEntry (exportLine p) = .ok (p.1, p.2) := by
  obtain ⟨k, it⟩ := p
  simp [exportLine, parseEntry, objGet, objGetD, pyInt, pyFloat, pyStr, pyTrunc_intCast]

theorem importLines_export (cart : Cart) :
    ∀ acc : Cart, qtyPos cart → cart.keysNodup →
      (∀ p ∈ cart, Cart.lookup acc p.1 = none) →
      importLines acc (cart.map exportLine) = .ok (acc ++ cart) := by
  induction cart with
  | nil =>
    intro acc _ _ _
    simp [importLines]
  | cons a t ih =>
    intro acc hq hnd hdisj
    have hnd2 := hnd
    unfold Cart.keysNodup at hnd2
    rw [List.map_cons, List.nodup_cons] at hnd2
    obtain ⟨hna, hndt⟩ := hnd2
    rw [List.map_cons, importLines, parseEntry_exportLine a]
    dsimp only
    have hqa : 0 < a.2.qty := hq a (List.mem_cons_self a t)
    rw [if_pos hqa]
    have haccnone : Cart.lookup acc a.1 = none := hdisj a (List.mem_cons_self a t)
    have hins : acc.dictInsert a.1 a.2 = acc ++ [a] := by
      unfold Cart.dictInsert
      rw [haccnone]
      rfl
    rw [hins]
    have ht : importLines (acc ++ [a]) (t.map exportLine) = .ok ((acc ++ [a]) ++ t) := by
      apply ih
      · intro p hp
        exact hq p (List.mem_cons_of_mem a hp)
      · exact hndt
      · intro p hp
        rw [Cart.lookup_append, hdisj p (List.mem_cons_of_mem a hp)]
        have hap : ¬ a.1 = p.1 := by
          intro h
          exact hna (h ▸ List.mem_map_of_mem Prod.fst hp)
        rw [Cart.lookup_cons, if_neg hap]
        rfl
    rw [ht, List.append_assoc]
    rfl

/-- C7: exporting a well-formed non-empty cart to JSON and importing the
payload back, over any prior cart, reproduces exactly the original
lines; the export of an empty cart is None rather than an error. -/
theorem c7_round_trip :
    (∀ (cart prior : Cart), cart.keysNodup → qtyPos cart → cart ≠ [] →
      export_cart cart = some (exportJson cart) ∧
      import_cart prior (exportJson cart) = (cart, none)) ∧
    export_cart [] = none := by
  constructor
  · intro cart prior hnd hq hne
    constructor
    · unfold export_cart
      rw [if_neg]
      · rfl
      · simp [List.isEmpty_iff, hne]
    · have him := importLines_export cart [] hq hnd (fun p _ => rfl)
      rw [List.nil_append] at him
      show (match importLines [] (cart.map exportLine) with
        | .ok newCart => (newCart, (none : Option ImportError))
        | .error err => (prior, some err)) = (cart, none)
      rw [him]
  · rfl

/-- C7 witness: a concrete two-line cart survives the JSON round trip
over a non-empty prior cart. -/
theorem c7_round_trip_witness :
    export_cart [((1 : ℤ), (⟨"A", 2, 3⟩ : CartItem)), (2, ⟨"B", 4, 1⟩)]
      = some (exportJson [((1 : ℤ), (⟨"A", 2, 3⟩ : CartItem)), (2, ⟨"B", 4, 1⟩)]) ∧
    import_cart [((9 : ℤ), (⟨"Q", 1, 1⟩ : CartItem))]
        (exportJson [((1 : ℤ), (⟨"A", 2, 3⟩ : CartItem)), (2, ⟨"B", 4, 1⟩)])
      = ([((1 : ℤ), (⟨"A", 2, 3⟩ : CartItem)), (2, ⟨"B", 4, 1⟩)], none) :=
  c7_round_trip.1 [((1 : ℤ), (⟨"A", 2, 3⟩ : CartItem)), (2, ⟨"B", 4, 1⟩)]
    [((9 : ℤ), (⟨"Q", 1, 1⟩ : CartItem))] (by decide) (by decide) (by decide)

end ShopLite
